import Mathlib

/-!
# Verification of `Heat_Pump_Model.py`

A shallow embedding of the heat-pump sweep script.  The script builds a
TESPy network once, solves a design case, saves the design state, and then
runs three sweeps (heat-source temperature, thermal load, and a
time-indexed dataset), extracting COP, compressor power and the two heat
duties after every solve.  Numbers are embedded as exact rationals
(`1e-3` becomes `1/1000`); the external solver is abstracted as a function
from specification states to solved states, with its contracts modelled
from the specification where the claims need them.
-/

namespace HeatPumpModel

/-! ## Script constants (`Heat_Pump_Model.py` lines 9–27) -/

def T_src_in : ℚ := 40
def T_src_out : ℚ := 10
def T_snk_in : ℚ := 40
def T_snk_out : ℚ := 90
def eta_comp : ℚ := 85 / 100
def Q_src : ℚ := 1000 * 1000
def Q_snk : ℚ := -1012 * 1000
def p_amb : ℚ := 1
def p_sink : ℚ := 1
def x_g : ℚ := 1
def x_l : ℚ := 0
def pr_cd1 : ℚ := 1
def pr_ev1 : ℚ := 1
def pr_cd2 : ℚ := 1
def pr_ev2 : ℚ := 1
def dt : ℕ := 100

/-- `np.linspace(start, stop, n)`: `n` evenly spaced samples including both
endpoints.  Rational division by zero is zero, so the `n = 1` case returns
`[start]`, exactly as numpy does. -/
def linspace (start stop : ℚ) (n : ℕ) : List ℚ :=
  (List.range n).map (fun k : ℕ => start + (stop - start) * (k : ℚ) / ((n : ℚ) - 1))

/-- Line 124: `T_range = np.linspace(T_src_in-5, T_src_in, 11)`. -/
def T_range : List ℚ := linspace (T_src_in - 5) T_src_in 11

/-- Line 163: `Q_range = np.linspace(1e-3, 1.0, 11) * Q_snk`. -/
def Q_range : List ℚ := (linspace (1 / 1000) 1 11).map (fun f => f * Q_snk)

/-! ## Specification state

The mutable specification attributes the script ever touches, one field per
`set_attr` target (lines 80–99, 132, 170, 233–252).  `none` means the
attribute is left free for the solver. -/

structure SpecState where
  c2_fluid : String
  c2_x : Option ℚ
  c2_T : Option ℚ
  c4_T : Option ℚ
  c11_fluid : String
  c11_p : Option ℚ
  c11_T : Option ℚ
  c12_refScale : Option ℚ
  c12_refOffset : Option ℚ
  c21_fluid : String
  c21_p : Option ℚ
  c21_T : Option ℚ
  c22_T : Option ℚ
  cp_eta_s : Option ℚ
  cd_Q : Option ℚ
  cd_pr1 : Option ℚ
  cd_pr2 : Option ℚ
  cd_ttd_u : Option ℚ
  ev_pr1 : Option ℚ
  ev_pr2 : Option ℚ
  ev_ttd_u : Option ℚ
deriving DecidableEq, Repr

/-- The specification state after the design-condition block (lines 80–99):
temperatures `c2.T` and `c4.T` are first fixed and then released again
(`set_attr(T=None)`) once the `ttd_u = 5` constraints are in place. -/
def designSpec : SpecState where
  c2_fluid := "Water"
  c2_x := some x_g
  c2_T := none
  c4_T := none
  c11_fluid := "air"
  c11_p := some p_amb
  c11_T := some T_src_in
  c12_refScale := some 1
  c12_refOffset := some (-2)
  c21_fluid := "Water"
  c21_p := some p_sink
  c21_T := some T_snk_in
  c22_T := some T_snk_out
  cp_eta_s := some eta_comp
  cd_Q := some Q_snk
  cd_pr1 := some pr_cd1
  cd_pr2 := some pr_cd2
  cd_ttd_u := some 5
  ev_pr1 := some pr_ev1
  ev_pr2 := some pr_ev2
  ev_ttd_u := some 5

/-- Line 132: `c11.set_attr(T=i)` — the only mutation performed by an
iteration of the source-temperature sweep. -/
def tempSweepSet (s : SpecState) (i : ℚ) : SpecState := { s with c11_T := some i }

/-- Line 170: `cd.set_attr(Q=i)` — the only mutation performed by an
iteration of the thermal-load sweep. -/
def loadSweepSet (s : SpecState) (i : ℚ) : SpecState := { s with cd_Q := some i }

/-- The specification states seen by the successive solve calls of a sweep
loop: each iteration first applies its `set_attr` mutation to the state left
by the previous iteration and then solves. -/
def sweepStates (f : SpecState → ℚ → SpecState) : SpecState → List ℚ → List SpecState
  | _, [] => []
  | s, i :: rest => f s i :: sweepStates f (f s i) rest

/-- The specification state used by the last solve of the source-temperature
sweep (the fold of `c11.set_attr(T=i)` over `T_range` from the design state). -/
def lastTempSweepSpec : SpecState := T_range.foldl tempSweepSet designSpec

/-! ## Solved state and metric extraction

`SolvedState` holds the three solver outputs the script reads back
(`cd.Q.val`, `cp.P.val`, `ev.Q.val`).  Each extraction site of the script
gets its own definition, embedded literally from its line. -/

structure SolvedState where
  cd_Q : ℚ
  cp_P : ℚ
  ev_Q : ℚ
deriving DecidableEq, Repr

/-- Line 107: `COP = abs(cd.Q.val) / cp.P.val`. -/
def cop_design (st : SolvedState) : ℚ := |st.cd_Q| / st.cp_P

/-- Line 108: `P_comp = cp.P.val * 1e-3`. -/
def pcomp_design (st : SolvedState) : ℚ := st.cp_P * (1 / 1000)

/-- Line 109: `Q_ev = abs(ev.Q.val) * 1e-3`. -/
def qev_design (st : SolvedState) : ℚ := |st.ev_Q| * (1 / 1000)

/-- Line 110: `Q_cd = abs(cd.Q.val) * 1e-3`. -/
def qcd_design (st : SolvedState) : ℚ := |st.cd_Q| * (1 / 1000)

/-- Line 135 (temperature sweep): `abs(cd.Q.val) / cp.P.val`. -/
def cop_tsweep (st : SolvedState) : ℚ := |st.cd_Q| / st.cp_P

/-- Line 136 (temperature sweep): `cp.P.val * 1e-3`. -/
def pcomp_tsweep (st : SolvedState) : ℚ := st.cp_P * (1 / 1000)

/-- Line 137 (temperature sweep): `ev.Q.val * 1e-3` — note: no `abs`. -/
def qev_tsweep (st : SolvedState) : ℚ := st.ev_Q * (1 / 1000)

/-- Line 138 (temperature sweep): `cd.Q.val * 1e-3` — note: no `abs`. -/
def qcd_tsweep (st : SolvedState) : ℚ := st.cd_Q * (1 / 1000)

/-- Line 173 (load sweep): `abs(cd.Q.val) / cp.P.val`. -/
def cop_lsweep (st : SolvedState) : ℚ := |st.cd_Q| / st.cp_P

/-- Line 174 (load sweep): `cp.P.val * 1e-3`. -/
def pcomp_lsweep (st : SolvedState) : ℚ := st.cp_P * (1 / 1000)

/-- Line 175 (load sweep): `ev.Q.val * 1e-3` — note: no `abs`. -/
def qev_lsweep (st : SolvedState) : ℚ := st.ev_Q * (1 / 1000)

/-- Line 176 (load sweep): `cd.Q.val * 1e-3` — note: no `abs`. -/
def qcd_lsweep (st : SolvedState) : ℚ := st.cd_Q * (1 / 1000)

/-- Line 258 (time-series branch): `abs(cd.Q.val) / cp.P.val`. -/
def cop_ts (st : SolvedState) : ℚ := |st.cd_Q| / st.cp_P

/-- Line 259 (time-series branch): `cp.P.val * 1e-3`. -/
def pcomp_ts (st : SolvedState) : ℚ := st.cp_P * (1 / 1000)

/-- Line 260 (time-series branch): `abs(ev.Q.val) * 1e-3`. -/
def qev_ts (st : SolvedState) : ℚ := |st.ev_Q| * (1 / 1000)

/-- Line 261 (time-series branch): `abs(cd.Q.val) * 1e-3`. -/
def qcd_ts (st : SolvedState) : ℚ := |st.cd_Q| * (1 / 1000)

/-! ## The script's solve/save event trace

The solver and persistence calls the script makes, in program order.  The
time-series segment is parameterised by the number `n` of dataset rows. -/

inductive Event where
  | solveDesign : Event
  | saveState : String → Event
  | solveOffdesign : String → Event
deriving DecidableEq, Repr

def isSave : Event → Bool
  | Event.saveState _ => true
  | _ => false

def isOffdesign : Event → Bool
  | Event.solveOffdesign _ => true
  | _ => false

def isSolve : Event → Bool
  | Event.saveState _ => false
  | _ => true

/-- Lines 102–104: `nw.solve("design")` followed by `nw.save("design-state")`. -/
def designPhaseEvents : List Event :=
  [Event.solveDesign, Event.saveState "design-state"]

/-- Line 133: one `nw.solve("offdesign", design_path="design-state")` per
element of `T_range`. -/
def tempSweepEvents : List Event :=
  T_range.map (fun _ => Event.solveOffdesign "design-state")

/-- Line 171: one `nw.solve("offdesign", design_path="design-state")` per
element of `Q_range`. -/
def loadSweepEvents : List Event :=
  Q_range.map (fun _ => Event.solveOffdesign "design-state")

/-- `astype(int)` on a float: truncation toward zero. -/
def trunc (q : ℚ) : ℤ := if 0 ≤ q then ⌊q⌋ else ⌈q⌉

/-- Line 231: `np.linspace(0, len(temp_in_src)-1, dt).astype(int)`, the row
indices visited by the time-series loop for a dataset of `n` rows. -/
def tsIndices (n : ℕ) : List ℤ :=
  (linspace 0 ((n : ℚ) - 1) dt).map trunc

/-- Lines 231–255: the body of the dataset loop performs exactly one solver
call, `nw.solve("design")` (line 255), for its row index. -/
def tsBodyEvents (_i : ℤ) : List Event := [Event.solveDesign]

/-- The solve events of the whole time-series loop. -/
def tsEvents (n : ℕ) : List Event := (tsIndices n).flatMap tsBodyEvents

/-- The full solve/save trace of one script run on a dataset of `n` rows. -/
def scriptTrace (n : ℕ) : List Event :=
  designPhaseEvents ++ (tempSweepEvents ++ (loadSweepEvents ++ tsEvents n))

/-! ## Python list indexing -/

/-- Python's `l[i]`: a negative index counts from the end and an
out-of-range index is an error (`none`). -/
def pyGet (l : List ℚ) (i : ℤ) : Option ℚ :=
  if i < 0 then
    if 0 ≤ (l.length : ℤ) + i then l.get? ((l.length : ℤ) + i).toNat else none
  else l.get? i.toNat

/-! ## Solver contracts modelled from the spec

The nonlinear solver lives in the external TESPy library, outside this
repository; the contracts the claims rely on are taken from the
specification's own statements about it. -/

/-- Modelled from the spec: the energy balance the external solver
guarantees at convergence ("mass and energy balance across a component's
ports must hold within solver tolerance at convergence"); over the closed
refrigerant loop it reads: heat rejected in the condenser = compressor work
+ heat absorbed in the evaporator. -/
def EnergyBalance (st : SolvedState) : Prop :=
  |st.cd_Q| = st.cp_P + |st.ev_Q|

/-- Modelled from the spec: "within solver tolerance ε", componentwise on
the solver outputs the script reads back. -/
def Close (s t : SolvedState) (ε : ℚ) : Prop :=
  |s.cd_Q - t.cd_Q| ≤ ε ∧ |s.cp_P - t.cp_P| ≤ ε ∧ |s.ev_Q - t.ev_Q| ≤ ε

/-! ## Concrete solved states used as test points -/

/-- A solved state with the commanded (negative) condenser duty
`Q_snk = -1012 kW` and a plausible compressor power. -/
def negDutyState : SolvedState where
  cd_Q := Q_snk
  cp_P := 300000
  ev_Q := -1000000

/-- A solved state satisfying the cycle energy balance exactly:
`|cd_Q| = 1300 kW = 300 kW + 1000 kW`. -/
def balancedState : SolvedState where
  cd_Q := -1300000
  cp_P := 300000
  ev_Q := -1000000

/-! ## Helper lemmas -/

/-- `T_range` evaluated: eleven half-degree steps from 35 °C to 40 °C. -/
lemma T_range_eq :
    T_range = [35, 71/2, 36, 73/2, 37, 75/2, 38, 77/2, 39, 79/2, 40] := by
  simp [T_range, linspace, T_src_in, List.range_succ]
  norm_num

/-- `Q_range` evaluated: duty magnitudes grow from 1.012 kW to 1012 kW,
all entries negative. -/
lemma Q_range_eq :
    Q_range = [-1012, -510554/5, -1016048/5, -1521542/5, -2027036/5,
               -506506, -3038024/5, -3543518/5, -4049012/5, -4554506/5,
               -1012000] := by
  simp [Q_range, linspace, Q_snk, List.range_succ]
  norm_num

lemma T_range_pairwise : List.Pairwise (· ≤ ·) T_range := by
  rw [T_range_eq]
  norm_num [List.pairwise_cons]

lemma Q_range_neg : ∀ q ∈ Q_range, q < 0 := by
  intro q hq
  rw [Q_range, List.mem_map] at hq
  obtain ⟨f, hf, rfl⟩ := hq
  rw [linspace, List.mem_map] at hf
  obtain ⟨k, hk, rfl⟩ := hf
  have hk0 : (0:ℚ) ≤ (k:ℚ) := Nat.cast_nonneg k
  have h2 : (0:ℚ) ≤ (1 - 1/1000) * k / ((11:ℚ) - 1) :=
    div_nonneg (mul_nonneg (by norm_num) hk0) (by norm_num)
  have hQ : Q_snk < 0 := by norm_num [Q_snk]
  refine mul_neg_of_pos_of_neg ?_ hQ
  linarith

/-- The states fed to the successive solves of the temperature sweep: each
one is the design state with only `c11.T` replaced. -/
lemma sweepStates_temp (s : SpecState) (l : List ℚ) :
    sweepStates tempSweepSet s l = l.map (fun i => { s with c11_T := some i }) := by
  induction l generalizing s with
  | nil => rfl
  | cons a rest ih =>
      simp only [sweepStates, List.map]
      rw [ih]
      rfl

/-- The states fed to the successive solves of the load sweep: each one is
the entry state with only `cd.Q` replaced. -/
lemma sweepStates_load (s : SpecState) (l : List ℚ) :
    sweepStates loadSweepSet s l = l.map (fun i => { s with cd_Q := some i }) := by
  induction l generalizing s with
  | nil => rfl
  | cons a rest ih =>
      simp only [sweepStates, List.map]
      rw [ih]
      rfl

/-- The last iteration of the temperature sweep sets `c11.T` back to the
design value `T_src_in = 40`, so the specification state at the last
off-design solve is exactly the design specification. -/
lemma lastTempSweep_eq : lastTempSweepSpec = designSpec := by
  rw [lastTempSweepSpec, T_range_eq]
  rfl

/-- Stability of a quotient of absolute value over a positive denominator:
if numerators and denominators of two quotients agree within `ε` and both
denominators are at least `p > 0`, the quotients agree within
`ε * (B2 + A2) / p²`. -/
lemma abs_div_sub_div_le (A1 A2 B1 B2 ε p : ℚ) (hp : 0 < p)
    (hB1 : p ≤ B1) (hB2 : p ≤ B2) (hA2 : 0 ≤ A2)
    (hA : |A1 - A2| ≤ ε) (hB : |B1 - B2| ≤ ε) :
    |A1 / B1 - A2 / B2| ≤ ε * (B2 + A2) / p ^ 2 := by
  have hB1p : 0 < B1 := lt_of_lt_of_le hp hB1
  have hB2p : 0 < B2 := lt_of_lt_of_le hp hB2
  rw [div_sub_div _ _ (ne_of_gt hB1p) (ne_of_gt hB2p), abs_div,
    abs_of_pos (mul_pos hB1p hB2p)]
  have hnum : |A1 * B2 - B1 * A2| ≤ ε * (B2 + A2) := by
    have hsplit : A1 * B2 - B1 * A2 = (A1 - A2) * B2 + A2 * (B2 - B1) := by ring
    rw [hsplit]
    calc |(A1 - A2) * B2 + A2 * (B2 - B1)|
        ≤ |(A1 - A2) * B2| + |A2 * (B2 - B1)| := abs_add _ _
      _ = |A1 - A2| * B2 + A2 * |B2 - B1| := by
          rw [abs_mul, abs_mul, abs_of_pos hB2p, abs_of_nonneg hA2]
      _ ≤ ε * B2 + A2 * ε := by
          refine add_le_add (mul_le_mul_of_nonneg_right hA hB2p.le) ?_
          exact mul_le_mul_of_nonneg_left ((abs_sub_comm B2 B1) ▸ hB) hA2
      _ = ε * (B2 + A2) := by ring
  have hε : 0 ≤ ε := le_trans (abs_nonneg _) hA
  calc |A1 * B2 - B1 * A2| / (B1 * B2)
      ≤ ε * (B2 + A2) / (B1 * B2) :=
        div_le_div_of_nonneg_right hnum (mul_pos hB1p hB2p).le
    _ ≤ ε * (B2 + A2) / p ^ 2 := by
        apply div_le_div_of_nonneg_left _ (by positivity) _
        · positivity
        · rw [sq]
          exact mul_le_mul hB1 hB2 hp.le hB1p.le

/-! ## Claim theorems -/

/-- C1: at every point where performance metrics are extracted — after the
design solve (line 107), after each off-design solve of the temperature
sweep (line 135) and of the load sweep (line 173), and after each per-row
design solve of the time-series branch (line 258) — the coefficient of
performance is computed as `|cd.Q| / cp.P`. -/
theorem cop_extracted_as_abs_duty_over_power (st : SolvedState) :
    cop_design st = |st.cd_Q| / st.cp_P ∧
    cop_tsweep st = |st.cd_Q| / st.cp_P ∧
    cop_lsweep st = |st.cd_Q| / st.cp_P ∧
    cop_ts st = |st.cd_Q| / st.cp_P :=
  ⟨rfl, rfl, rfl, rfl⟩

/-- C2 counterexample: in the temperature sweep the recorded condenser-duty
entry is `cd.Q.val * 1e-3` with no absolute value (line 138); at the
commanded duty `cd.Q = Q_snk = -1012 kW` the recorded entry is `-1012`,
which is negative and differs from `|cd.Q| * 1e-3`. -/
theorem sweep_duty_recording_negative_cex :
    qcd_tsweep negDutyState = -1012 ∧
    qcd_tsweep negDutyState ≠ |negDutyState.cd_Q| * (1 / 1000) ∧
    ¬ (0 ≤ qcd_tsweep negDutyState) := by
  refine ⟨?_, ?_, ?_⟩ <;> norm_num [qcd_tsweep, negDutyState, Q_snk]

/-- C2 (amended): the design extraction (lines 109–110) and the time-series
branch (lines 260–261) record duty entries as `|Q| * 1e-3`, hence
non-negative; the temperature sweep (lines 137–138) and the load sweep
(lines 175–176) record the signed duty `Q * 1e-3`, with the absolute value
applied only at plot time. -/
theorem duty_recording_by_branch (st : SolvedState) :
    (qev_tsweep st = st.ev_Q * (1 / 1000) ∧ qcd_tsweep st = st.cd_Q * (1 / 1000) ∧
     qev_lsweep st = st.ev_Q * (1 / 1000) ∧ qcd_lsweep st = st.cd_Q * (1 / 1000)) ∧
    (qev_design st = |st.ev_Q| * (1 / 1000) ∧ qcd_design st = |st.cd_Q| * (1 / 1000) ∧
     qev_ts st = |st.ev_Q| * (1 / 1000) ∧ qcd_ts st = |st.cd_Q| * (1 / 1000)) ∧
    (0 ≤ qev_design st ∧ 0 ≤ qcd_design st ∧ 0 ≤ qev_ts st ∧ 0 ≤ qcd_ts st) := by
  refine ⟨⟨rfl, rfl, rfl, rfl⟩, ⟨rfl, rfl, rfl, rfl⟩, ?_, ?_, ?_, ?_⟩ <;>
    first
      | (rw [qev_design]; positivity)
      | (rw [qcd_design]; positivity)
      | (rw [qev_ts]; positivity)
      | (rw [qcd_ts]; positivity)

/-- C4: for every converged solve in heating mode with strictly positive
compressor power, the computed `COP = |cd.Q| / cp.P` is at least 1.  The
convergence guarantee is the spec-modelled cycle energy balance
`|cd.Q| = cp.P + |ev.Q|`. -/
theorem cop_ge_one_of_energy_balance (st : SolvedState)
    (hbal : EnergyBalance st) (hP : 0 < st.cp_P) :
    1 ≤ cop_design st ∧ 1 ≤ cop_tsweep st := by
  have h : 1 ≤ |st.cd_Q| / st.cp_P := by
    rw [one_le_div hP, hbal]
    exact le_add_of_nonneg_right (abs_nonneg _)
  exact ⟨h, h⟩

/-- Witness for C4 at the concrete balanced state
`(cd_Q, cp_P, ev_Q) = (-1300 kW, 300 kW, -1000 kW)`. -/
theorem cop_ge_one_of_energy_balance_witness :
    1 ≤ cop_design balancedState ∧ 1 ≤ cop_tsweep balancedState :=
  cop_ge_one_of_energy_balance balancedState
    (by norm_num [EnergyBalance, balancedState]) (by norm_num [balancedState])

/-- C7: an iteration of the temperature sweep mutates only `c11.T`
(line 132) and an iteration of the load sweep mutates only `cd.Q`
(line 170); every other specification attribute is left unchanged, and
because `s` is universally quantified the new value `some i` is determined
by the sweep input alone, whatever state a prior (possibly failed) solve
left behind. -/
theorem sweep_iteration_frame (s : SpecState) (i : ℚ) :
    ((tempSweepSet s i).c11_T = some i ∧
      (tempSweepSet s i).c2_fluid = s.c2_fluid ∧ (tempSweepSet s i).c2_x = s.c2_x ∧
      (tempSweepSet s i).c2_T = s.c2_T ∧ (tempSweepSet s i).c4_T = s.c4_T ∧
      (tempSweepSet s i).c11_fluid = s.c11_fluid ∧ (tempSweepSet s i).c11_p = s.c11_p ∧
      (tempSweepSet s i).c12_refScale = s.c12_refScale ∧
      (tempSweepSet s i).c12_refOffset = s.c12_refOffset ∧
      (tempSweepSet s i).c21_fluid = s.c21_fluid ∧ (tempSweepSet s i).c21_p = s.c21_p ∧
      (tempSweepSet s i).c21_T = s.c21_T ∧ (tempSweepSet s i).c22_T = s.c22_T ∧
      (tempSweepSet s i).cp_eta_s = s.cp_eta_s ∧ (tempSweepSet s i).cd_Q = s.cd_Q ∧
      (tempSweepSet s i).cd_pr1 = s.cd_pr1 ∧ (tempSweepSet s i).cd_pr2 = s.cd_pr2 ∧
      (tempSweepSet s i).cd_ttd_u = s.cd_ttd_u ∧ (tempSweepSet s i).ev_pr1 = s.ev_pr1 ∧
      (tempSweepSet s i).ev_pr2 = s.ev_pr2 ∧ (tempSweepSet s i).ev_ttd_u = s.ev_ttd_u) ∧
    ((loadSweepSet s i).cd_Q = some i ∧
      (loadSweepSet s i).c2_fluid = s.c2_fluid ∧ (loadSweepSet s i).c2_x = s.c2_x ∧
      (loadSweepSet s i).c2_T = s.c2_T ∧ (loadSweepSet s i).c4_T = s.c4_T ∧
      (loadSweepSet s i).c11_fluid = s.c11_fluid ∧ (loadSweepSet s i).c11_p = s.c11_p ∧
      (loadSweepSet s i).c11_T = s.c11_T ∧
      (loadSweepSet s i).c12_refScale = s.c12_refScale ∧
      (loadSweepSet s i).c12_refOffset = s.c12_refOffset ∧
      (loadSweepSet s i).c21_fluid = s.c21_fluid ∧ (loadSweepSet s i).c21_p = s.c21_p ∧
      (loadSweepSet s i).c21_T = s.c21_T ∧ (loadSweepSet s i).c22_T = s.c22_T ∧
      (loadSweepSet s i).cp_eta_s = s.cp_eta_s ∧
      (loadSweepSet s i).cd_pr1 = s.cd_pr1 ∧ (loadSweepSet s i).cd_pr2 = s.cd_pr2 ∧
      (loadSweepSet s i).cd_ttd_u = s.cd_ttd_u ∧ (loadSweepSet s i).ev_pr1 = s.ev_pr1 ∧
      (loadSweepSet s i).ev_pr2 = s.ev_pr2 ∧ (loadSweepSet s i).ev_ttd_u = s.ev_ttd_u) := by
  constructor <;> simp [tempSweepSet, loadSweepSet]

/-- C3 counterexample: take an off-design solver that reproduces the design
solution exactly (tolerance `ε = 0`) at the last sweep point, whose
specification equals the design specification.  The recorded condenser-duty
metric at that point still differs from the design-case metric by 2024 kW,
because the sweep records the signed duty (line 138) while the design
extraction takes the absolute value (line 110); so not all extracted
metrics equal the design-case metrics within `ε`. -/
theorem last_sweep_duty_metric_sign_cex :
    lastTempSweepSpec = designSpec ∧
    Close ((fun _ : SpecState => negDutyState) designSpec) negDutyState 0 ∧
    qcd_tsweep ((fun _ : SpecState => negDutyState) lastTempSweepSpec) -
        qcd_design negDutyState = -2024 ∧
    ¬ (|qcd_tsweep ((fun _ : SpecState => negDutyState) lastTempSweepSpec) -
        qcd_design negDutyState| ≤ 0) := by
  refine ⟨lastTempSweep_eq, ?_, ?_, ?_⟩ <;>
    norm_num [Close, qcd_tsweep, qcd_design, negDutyState, Q_snk]

/-- C3 (amended): the last point of the source-temperature sweep sets the
heat-source inlet temperature back to the design value, so its
specification state equals the design case's; an off-design solver
satisfying the spec's round-trip contract (`Close` within `ε`) therefore
reproduces the design connection states within `ε` there, and the COP and
compressor-power metrics agree within bounds proportional to `ε`, while the
sweep's duty entries agree with the design duty metrics in absolute value
within `ε / 1000` (their raw recorded values differ in sign, see the
counterexample). -/
theorem last_temp_sweep_reproduces_design (od : SpecState → SolvedState)
    (ds : SolvedState) (ε p : ℚ) (hp : 0 < p)
    (hrt : Close (od designSpec) ds ε)
    (hP1 : p ≤ (od designSpec).cp_P) (hP2 : p ≤ ds.cp_P) :
    lastTempSweepSpec = designSpec ∧
    Close (od lastTempSweepSpec) ds ε ∧
    |pcomp_tsweep (od lastTempSweepSpec) - pcomp_design ds| ≤ ε * (1 / 1000) ∧
    |abs (qcd_tsweep (od lastTempSweepSpec)) - qcd_design ds| ≤ ε * (1 / 1000) ∧
    |abs (qev_tsweep (od lastTempSweepSpec)) - qev_design ds| ≤ ε * (1 / 1000) ∧
    |cop_tsweep (od lastTempSweepSpec) - cop_design ds| ≤
      ε * (ds.cp_P + |ds.cd_Q|) / p ^ 2 := by
  rw [lastTempSweep_eq]
  obtain ⟨h1, h2, h3⟩ := hrt
  have h1000 : (0:ℚ) < 1 / 1000 := by norm_num
  refine ⟨rfl, ⟨h1, h2, h3⟩, ?_, ?_, ?_, ?_⟩
  · have hdiff : pcomp_tsweep (od designSpec) - pcomp_design ds
        = ((od designSpec).cp_P - ds.cp_P) * (1 / 1000) := by
      rw [pcomp_tsweep, pcomp_design]; ring
    rw [hdiff, abs_mul, abs_of_pos h1000]
    exact mul_le_mul_of_nonneg_right h2 h1000.le
  · have habs : |qcd_tsweep (od designSpec)| = |(od designSpec).cd_Q| * (1 / 1000) := by
      rw [qcd_tsweep, abs_mul, abs_of_pos h1000]
    have hdiff : |(od designSpec).cd_Q| * (1 / 1000) - qcd_design ds
        = (|(od designSpec).cd_Q| - |ds.cd_Q|) * (1 / 1000) := by
      rw [qcd_design]; ring
    rw [habs, hdiff, abs_mul, abs_of_pos h1000]
    exact mul_le_mul_of_nonneg_right
      ((abs_abs_sub_abs_le_abs_sub _ _).trans h1) h1000.le
  · have habs : |qev_tsweep (od designSpec)| = |(od designSpec).ev_Q| * (1 / 1000) := by
      rw [qev_tsweep, abs_mul, abs_of_pos h1000]
    have hdiff : |(od designSpec).ev_Q| * (1 / 1000) - qev_design ds
        = (|(od designSpec).ev_Q| - |ds.ev_Q|) * (1 / 1000) := by
      rw [qev_design]; ring
    rw [habs, hdiff, abs_mul, abs_of_pos h1000]
    exact mul_le_mul_of_nonneg_right
      ((abs_abs_sub_abs_le_abs_sub _ _).trans h3) h1000.le
  · rw [cop_tsweep, cop_design]
    exact abs_div_sub_div_le _ _ _ _ ε p hp hP1 hP2 (abs_nonneg _)
      ((abs_abs_sub_abs_le_abs_sub _ _).trans h1) h2

/-- Witness for C3 (amended) with the exact constant solver at `ε = 0`,
`p = 300000`. -/
theorem last_temp_sweep_reproduces_design_witness :
    lastTempSweepSpec = designSpec ∧
    Close ((fun _ : SpecState => negDutyState) lastTempSweepSpec) negDutyState 0 ∧
    |pcomp_tsweep ((fun _ : SpecState => negDutyState) lastTempSweepSpec) -
        pcomp_design negDutyState| ≤ 0 * (1 / 1000) ∧
    |abs (qcd_tsweep ((fun _ : SpecState => negDutyState) lastTempSweepSpec)) -
        qcd_design negDutyState| ≤ 0 * (1 / 1000) ∧
    |abs (qev_tsweep ((fun _ : SpecState => negDutyState) lastTempSweepSpec)) -
        qev_design negDutyState| ≤ 0 * (1 / 1000) ∧
    |cop_tsweep ((fun _ : SpecState => negDutyState) lastTempSweepSpec) -
        cop_design negDutyState| ≤
      0 * (negDutyState.cp_P + |negDutyState.cd_Q|) / 300000 ^ 2 :=
  last_temp_sweep_reproduces_design (fun _ => negDutyState) negDutyState 0 300000
    (by norm_num)
    (by refine ⟨?_, ?_, ?_⟩ <;> norm_num [negDutyState])
    (by norm_num [negDutyState]) (by norm_num [negDutyState])

/-- C5: in the solve/save trace of any run (any dataset length `n`), the
design-state snapshot is written exactly once; the write is the second
event, immediately after the single design-phase solve and before every
off-design solve (which all occur after position 2); no event after the
first two ever writes the snapshot; and every off-design solve reads the
snapshot at path `"design-state"`. -/
theorem design_state_saved_once_before_offdesign (n : ℕ) :
    (scriptTrace n).countP isSave = 1 ∧
    (scriptTrace n).take 2 = [Event.solveDesign, Event.saveState "design-state"] ∧
    (∀ e ∈ (scriptTrace n).take 2, isOffdesign e = false) ∧
    (∀ e ∈ (scriptTrace n).drop 2, isSave e = false) ∧
    (∀ p, Event.solveOffdesign p ∈ scriptTrace n → p = "design-state") := by
  have hrest : ∀ e ∈ tempSweepEvents ++ (loadSweepEvents ++ tsEvents n),
      isSave e = false := by
    intro e he
    rcases List.mem_append.mp he with h | h
    · obtain ⟨_, _, rfl⟩ := List.mem_map.mp h
      rfl
    · rcases List.mem_append.mp h with h2 | h2
      · obtain ⟨_, _, rfl⟩ := List.mem_map.mp h2
        rfl
      · obtain ⟨_, _, h3⟩ := List.mem_flatMap.mp h2
        rw [tsBodyEvents, List.mem_singleton] at h3
        rw [h3]
        rfl
  have htrace : scriptTrace n = Event.solveDesign :: Event.saveState "design-state" ::
      (tempSweepEvents ++ (loadSweepEvents ++ tsEvents n)) := rfl
  refine ⟨?_, rfl, ?_, ?_, ?_⟩
  · rw [htrace]
    have h0 : (tempSweepEvents ++ (loadSweepEvents ++ tsEvents n)).countP isSave = 0 :=
      List.countP_eq_zero.mpr (fun e he => by rw [hrest e he]; exact Bool.false_ne_true)
    simp [List.countP_cons, isSave, h0]
  · intro e he
    rw [htrace] at he
    simp only [List.take, List.mem_cons, List.not_mem_nil, or_false] at he
    rcases he with rfl | rfl <;> rfl
  · intro e he
    exact hrest e he
  · intro p hp
    rw [htrace] at hp
    rcases List.mem_cons.mp hp with h | hp2
    · exact absurd h (by simp)
    rcases List.mem_cons.mp hp2 with h | hp3
    · exact absurd h (by simp)
    rcases List.mem_append.mp hp3 with h | h
    · obtain ⟨_, _, heq⟩ := List.mem_map.mp h
      injection heq with h'
      exact h'.symm
    rcases List.mem_append.mp h with h2 | h2
    · obtain ⟨_, _, heq⟩ := List.mem_map.mp h2
      injection heq with h'
      exact h'.symm
    · obtain ⟨_, _, h3⟩ := List.mem_flatMap.mp h2
      rw [tsBodyEvents, List.mem_singleton] at h3
      exact absurd h3 (by simp)

/-- Witness for C5 at `n = 0`, instantiating the quantified parts at the
first trace event, at an off-design event of the temperature sweep, and at
the path read by that event. -/
theorem design_state_saved_once_before_offdesign_witness :
    (scriptTrace 0).countP isSave = 1 ∧
    isOffdesign Event.solveDesign = false ∧
    isSave (Event.solveOffdesign "design-state") = false ∧
    "design-state" = "design-state" := by
  have h := design_state_saved_once_before_offdesign 0
  have htemp : Event.solveOffdesign "design-state" ∈ tempSweepEvents := by
    rw [tempSweepEvents, List.mem_map]
    refine ⟨35, ?_, rfl⟩
    rw [T_range_eq]
    exact List.mem_cons_self _ _
  have hmem1 : Event.solveDesign ∈ (scriptTrace 0).take 2 := by
    rw [h.2.1]
    exact List.mem_cons_self _ _
  have hdrop : (scriptTrace 0).drop 2 = tempSweepEvents ++ (loadSweepEvents ++ tsEvents 0) :=
    rfl
  have hmem2 : Event.solveOffdesign "design-state" ∈ (scriptTrace 0).drop 2 := by
    rw [hdrop]
    exact List.mem_append_left _ htemp
  have hmem3 : Event.solveOffdesign "design-state" ∈ scriptTrace 0 :=
    List.mem_append_right _ (List.mem_append_left _ htemp)
  exact ⟨h.1, h.2.2.1 _ hmem1, h.2.2.2.1 _ hmem2, h.2.2.2.2 _ hmem3⟩

/-- C6: every iteration of the time-series dataset loop performs exactly
one solver call and that call is `nw.solve("design")` (line 255); no
iteration ever calls the solver in off-design mode, so every event of the
time-series segment is a design-mode solve. -/
theorem timeseries_loop_design_mode :
    (∀ i : ℤ, tsBodyEvents i = [Event.solveDesign] ∧
      (tsBodyEvents i).countP isSolve = 1 ∧
      ∀ p, Event.solveOffdesign p ∉ tsBodyEvents i) ∧
    (∀ n : ℕ, ∀ e ∈ tsEvents n, e = Event.solveDesign) := by
  constructor
  · intro i
    refine ⟨rfl, rfl, ?_⟩
    intro p hp
    rw [tsBodyEvents, List.mem_singleton] at hp
    exact absurd hp (by simp)
  · intro n e he
    obtain ⟨i, _, h3⟩ := List.mem_flatMap.mp he
    rw [tsBodyEvents, List.mem_singleton] at h3
    exact h3

/-- Witness for C6 at row index 0 and a one-row dataset. -/
theorem timeseries_loop_design_mode_witness :
    tsBodyEvents 0 = [Event.solveDesign] ∧
    (tsBodyEvents 0).countP isSolve = 1 ∧
    Event.solveOffdesign "design-state" ∉ tsBodyEvents 0 ∧
    Event.solveDesign = Event.solveDesign := by
  have hne : tsIndices 1 ≠ [] := by
    intro h
    have hlen := congrArg List.length h
    simp [tsIndices, linspace, dt] at hlen
  obtain ⟨i0, hi0⟩ := List.exists_mem_of_ne_nil _ hne
  have hmem : Event.solveDesign ∈ tsEvents 1 :=
    List.mem_flatMap.mpr ⟨i0, hi0, by rw [tsBodyEvents]; exact List.mem_singleton.mpr rfl⟩
  exact ⟨(timeseries_loop_design_mode.1 0).1, (timeseries_loop_design_mode.1 0).2.1,
    (timeseries_loop_design_mode.1 0).2.2 "design-state",
    timeseries_loop_design_mode.2 1 Event.solveDesign hmem⟩

/-- C8: the temperature sweep visits `T_range` in increasing order and
records one COP entry per point, so for any off-design solver whose COP
response is monotone in the heat-source inlet temperature at fixed sink
conditions (the spec-modelled physics contract), the recorded COP series is
non-decreasing: any earlier entry is at most any later entry. -/
theorem temp_sweep_cop_nondecreasing (od : SpecState → SolvedState)
    (hmono : ∀ t1 t2 : ℚ, t1 ≤ t2 →
      cop_tsweep (od (tempSweepSet designSpec t1)) ≤
        cop_tsweep (od (tempSweepSet designSpec t2))) :
    List.Pairwise (· ≤ ·)
      ((sweepStates tempSweepSet designSpec T_range).map fun s => cop_tsweep (od s)) := by
  rw [sweepStates_temp, List.map_map]
  exact List.Pairwise.map _ (fun a b hab => hmono a b hab) T_range_pairwise

/-- Witness for C8 with a constant solver (its COP response is trivially
monotone). -/
theorem temp_sweep_cop_nondecreasing_witness :
    List.Pairwise (· ≤ ·)
      ((sweepStates tempSweepSet designSpec T_range).map fun s =>
        cop_tsweep ((fun _ : SpecState => balancedState) s)) :=
  temp_sweep_cop_nondecreasing (fun _ => balancedState) (fun _ _ _ => le_rfl)

/-- C9: the load sweep commands the duty values of `Q_range` (all
non-zero); for any off-design solver whose compressor power is proportional
to the commanded duty magnitude at fixed source/sink temperatures (the
spec-modelled contract `P = |Q| / c` with a fixed COP `c > 0`), the solved
powers at any two sweep points satisfy `P(Q1) / P(Q2) = |Q1| / |Q2|`, and a
smaller commanded magnitude gives no more power. -/
theorem load_sweep_power_proportional (od : SpecState → SolvedState) (c : ℚ)
    (hc : 0 < c)
    (hprop : ∀ q : ℚ, (od (loadSweepSet designSpec q)).cp_P = |q| / c) :
    ∀ q1 ∈ Q_range, ∀ q2 ∈ Q_range,
      (|q1| ≤ |q2| →
        (od (loadSweepSet designSpec q1)).cp_P ≤ (od (loadSweepSet designSpec q2)).cp_P) ∧
      (od (loadSweepSet designSpec q1)).cp_P / (od (loadSweepSet designSpec q2)).cp_P
        = |q1| / |q2| := by
  intro q1 h1 q2 h2
  have hq2 : (0:ℚ) < |q2| := abs_pos.mpr (ne_of_lt (Q_range_neg q2 h2))
  constructor
  · intro hle
    rw [hprop q1, hprop q2]
    exact div_le_div_of_nonneg_right hle hc.le
  · rw [hprop q1, hprop q2]
    have hcne : c ≠ 0 := ne_of_gt hc
    have hq2ne : |q2| ≠ 0 := ne_of_gt hq2
    field_simp

/-- Witness for C9 at the first sweep point `Q = -1012 W` (so `q1 = q2`)
with the solver that reads the commanded duty back at unit COP. -/
theorem load_sweep_power_proportional_witness :
    (|(-1012:ℚ)| ≤ |(-1012:ℚ)| →
      ((fun s : SpecState => SolvedState.mk 0 (|s.cd_Q.getD 0| / 1) 0)
          (loadSweepSet designSpec (-1012))).cp_P ≤
        ((fun s : SpecState => SolvedState.mk 0 (|s.cd_Q.getD 0| / 1) 0)
          (loadSweepSet designSpec (-1012))).cp_P) ∧
    ((fun s : SpecState => SolvedState.mk 0 (|s.cd_Q.getD 0| / 1) 0)
        (loadSweepSet designSpec (-1012))).cp_P /
      ((fun s : SpecState => SolvedState.mk 0 (|s.cd_Q.getD 0| / 1) 0)
        (loadSweepSet designSpec (-1012))).cp_P = |(-1012:ℚ)| / |(-1012:ℚ)| := by
  have hmem : (-1012:ℚ) ∈ Q_range := by
    rw [Q_range_eq]
    exact List.mem_cons_self _ _
  exact load_sweep_power_proportional
    (fun s => SolvedState.mk 0 (|s.cd_Q.getD 0| / 1) 0) 1 one_pos
    (fun q => rfl) (-1012) hmem (-1012) hmem

/-- Truncation toward zero of a rational in `[0, m]` lands in `[0, m]`. -/
lemma trunc_bounds (x : ℚ) (m : ℤ) (hx0 : 0 ≤ x) (hx1 : x ≤ (m:ℚ)) :
    0 ≤ trunc x ∧ trunc x ≤ m := by
  rw [trunc, if_pos hx0]
  refine ⟨Int.floor_nonneg.mpr hx0, ?_⟩
  have h := Int.floor_le_floor hx1
  rwa [Int.floor_intCast] at h

/-- C10: for a dataset whose tables have `n ≥ 1` rows of equal length, every
row index produced by `np.linspace(0, n-1, dt).astype(int)` lies in
`[0, n-1]`, so every per-row Python list access on a length-`n` column
succeeds; for an empty dataset (`n = 0`) the loop still runs but no index
is valid for an empty column — every access fails. -/
theorem ts_row_access_bounds :
    (∀ n : ℕ, 1 ≤ n → ∀ l : List ℚ, l.length = n → ∀ i ∈ tsIndices n,
      0 ≤ i ∧ i < (n : ℤ) ∧ (pyGet l i).isSome = true) ∧
    (∀ i : ℤ, pyGet ([] : List ℚ) i = none) ∧
    tsIndices 0 ≠ [] := by
  refine ⟨?_, ?_, ?_⟩
  · intro n hn l hl i hi
    rw [tsIndices, List.mem_map] at hi
    obtain ⟨v, hv, rfl⟩ := hi
    rw [linspace, List.mem_map] at hv
    obtain ⟨k, hk, rfl⟩ := hv
    rw [List.mem_range] at hk
    have hd : ((dt:ℚ) - 1) = 99 := by norm_num [dt]
    have hn1 : (0:ℚ) ≤ (n:ℚ) - 1 := by
      have h1 : (1:ℚ) ≤ (n:ℚ) := by exact_mod_cast hn
      linarith
    have hk99 : (k:ℚ) ≤ 99 := by
      have hk' : k ≤ 99 := by
        have : k < dt := hk
        rw [dt] at this
        omega
      exact_mod_cast hk'
    have hk0 : (0:ℚ) ≤ (k:ℚ) := Nat.cast_nonneg k
    have hv0 : 0 ≤ 0 + ((n:ℚ) - 1 - 0) * (k:ℚ) / ((dt:ℚ) - 1) := by
      rw [hd]
      have := div_nonneg (mul_nonneg (by linarith : (0:ℚ) ≤ (n:ℚ) - 1 - 0) hk0)
        (by norm_num : (0:ℚ) ≤ 99)
      linarith
    have hv1 : 0 + ((n:ℚ) - 1 - 0) * (k:ℚ) / ((dt:ℚ) - 1) ≤ (((n:ℤ) - 1 : ℤ) : ℚ) := by
      rw [hd]
      have hcast : (((n:ℤ) - 1 : ℤ) : ℚ) = (n:ℚ) - 1 := by push_cast; ring
      rw [hcast, zero_add, div_le_iff₀ (by norm_num : (0:ℚ) < 99)]
      nlinarith
    obtain ⟨hi0, hi1⟩ := trunc_bounds _ ((n:ℤ) - 1) hv0 hv1
    refine ⟨hi0, by omega, ?_⟩
    rw [pyGet, if_neg (not_lt.mpr hi0)]
    have htn : (trunc (0 + ((n:ℚ) - 1 - 0) * (k:ℚ) / ((dt:ℚ) - 1))).toNat < l.length := by
      omega
    rw [List.get?_eq_getElem?, List.getElem?_eq_getElem htn]
    rfl
  · intro i
    rw [pyGet]
    split_ifs <;> simp
  · intro h
    have hlen := congrArg List.length h
    simp [tsIndices, linspace, dt] at hlen

/-- Witness for C10 at a one-row dataset (`n = 1`, column `[5]`, index 0)
and an empty-column access at index 7. -/
theorem ts_row_access_bounds_witness :
    (0 ≤ (0:ℤ) ∧ (0:ℤ) < ((1:ℕ) : ℤ) ∧ (pyGet [(5:ℚ)] 0).isSome = true) ∧
    pyGet ([] : List ℚ) 7 = none := by
  have hfun : tsIndices 1 = (List.range dt).map (fun _ => (0:ℤ)) := by
    rw [tsIndices, linspace, List.map_map]
    refine List.map_congr_left (fun k hk => ?_)
    norm_num [trunc]
  have hmem : (0:ℤ) ∈ tsIndices 1 := by
    rw [hfun, List.mem_map]
    exact ⟨0, List.mem_range.mpr (by norm_num [dt]), rfl⟩
  exact ⟨ts_row_access_bounds.1 1 le_rfl [5] rfl 0 hmem, ts_row_access_bounds.2.1 7⟩

end HeatPumpModel
